import Mathlib

/-!
Verification of the Happy synchronization transport and endpoint resolver
(`apiSocket.ts` and the server resolver module) against its natural-language
specification.

The resolver module (`probeUrl`, `raceProbes`, `resolveNow`,
`getResolvedServerUrl`, `resetResolver`, `notifyConnectionFailed`) and the
`ApiSocket` class (`sessionRPC`, `machineRPC`, `emitWithAck`,
`waitForConnection`, `onStatusChange`, `updateStatus`) are embedded as pure
Lean functions.  Asynchrony is made explicit: the outcome of every `fetch`
is an environment value, the completion order of parallel probes is an
explicit list, and the socket's connect event is a time stamp.
-/

namespace Happy

/-! ## HTTP fetch environment (for `probeUrl`) -/

/-- Outcome of one `fetch(url, ...)` call as the probe observes it:
either the server responds after `elapsedMs` milliseconds with a status
(`ok`) and a `body`, or the fetch rejects (network error, abort). -/
inductive FetchBehavior where
  | responds (elapsedMs : Nat) (ok : Bool) (body : String)
  | fails
deriving DecidableEq, Repr

/-- JavaScript `String.prototype.includes` on explicit character lists:
true when `pat` occurs as a contiguous substring. -/
def listIncludes (pat : List Char) : List Char → Bool
  | [] => pat.isEmpty
  | c :: rest => pat.isPrefixOf (c :: rest) || listIncludes pat rest

/-- JavaScript `text.includes(pat)`. -/
def jsIncludes (text pat : String) : Bool :=
  listIncludes pat.data text.data

/-- The fixed server-identity marker the probe looks for in the body. -/
def happyServerMarker : String := "Welcome to Happy Server!"

/-- Default per-probe timeout in milliseconds (`timeoutMs = 3000`). -/
def probeTimeoutMs : Nat := 3000

/-- Embedding of `probeUrl(url, timeoutMs = 3000)`.  The fetch is cancelled
by the abort timer once `timeoutMs` elapses, so a response arriving at or
after `timeoutMs` is observed as a rejection; every rejection is caught and
becomes `none`; a response yields `url` exactly when its status is ok and
its body contains the identity marker. -/
def probeUrl (url : String) (f : FetchBehavior) (timeoutMs : Nat := probeTimeoutMs) :
    Option String :=
  match f with
  | .fails => none
  | .responds elapsedMs ok body =>
    if timeoutMs ≤ elapsedMs then none
    else if !ok then none
    else if !(jsIncludes body happyServerMarker) then none
    else some url

/-! ## Probe race (`raceProbes`) -/

/-- The settle loop inside `raceProbes` for two or more candidates.
`completionOrder` lists the candidate URLs in the order their probes
return; `pending` counts probes not yet returned.  The first probe to
return a non-null result settles the race with that result; when the last
probe returns null the race settles with null; a race whose completion
list runs out without settling never settles (`none`). -/
def raceLoop (fetchEnv : String → FetchBehavior) : Nat → List String → Option (Option String)
  | _, [] => none
  | pending, u :: rest =>
    match probeUrl u (fetchEnv u) with
    | some r => some (some r)
    | none =>
      if pending - 1 = 0 then some none
      else raceLoop fetchEnv (pending - 1) rest

/-- Embedding of `raceProbes(candidates)`: empty list settles with null at
once, a single candidate is just its own probe, otherwise the parallel
race is run over the probes' completion order. -/
def raceProbes (fetchEnv : String → FetchBehavior) (candidates : List String)
    (completionOrder : List String) : Option (Option String) :=
  if candidates.isEmpty then some none
  else if candidates.length = 1 then
    some (probeUrl candidates.head! (fetchEnv candidates.head!))
  else raceLoop fetchEnv candidates.length completionOrder

/-! ## Resolver state and operations -/

/-- In-memory `activeUrl` plus the persisted `ACTIVE_URL_KEY` record of
the MMKV `resolverStorage`. -/
structure ResolverState where
  activeUrl : Option String
  storage : Option String
deriving DecidableEq, Repr

/-- Candidate list built inside `resolveNow`: `[primaryUrl]`, with the LAN
URL appended when it is set, truthy and distinct from the primary. -/
def buildCandidates (primaryUrl : String) (lanUrl : Option String) : List String :=
  match lanUrl with
  | some l => if l ≠ "" ∧ l ≠ primaryUrl then [primaryUrl, l] else [primaryUrl]
  | none => [primaryUrl]

/-- Embedding of `resolveNow()` (the body run under `resolveLock`): race
the de-duplicated candidates; a winner is written to both the in-memory
and the persisted Active URL; if all probes fail the state is kept.
`none` is the (unreachable for well-formed completion orders) case of a
race that never settles. -/
def resolveNow (primaryUrl : String) (lanUrl : Option String)
    (fetchEnv : String → FetchBehavior) (completionOrder : List String)
    (s : ResolverState) : Option ResolverState :=
  match raceProbes fetchEnv (buildCandidates primaryUrl lanUrl) completionOrder with
  | none => none
  | some none => some s
  | some (some winner) => some ⟨some winner, some winner⟩

/-- Embedding of `getResolvedServerUrl()`.  Returns the value handed to
the caller, the resolver state afterwards, and whether a background
`resolveNow()` was started (it is not awaited).  A truthy cached
`activeUrl` is returned unchanged; otherwise the primary URL is returned,
stored as active, and a background resolution is kicked off. -/
def getResolvedServerUrl (primaryUrl : String) (s : ResolverState) :
    String × ResolverState × Bool :=
  match s.activeUrl with
  | some u =>
    if u = "" then (primaryUrl, ⟨some primaryUrl, s.storage⟩, true)
    else (u, s, false)
  | none => (primaryUrl, ⟨some primaryUrl, s.storage⟩, true)

/-- Embedding of `resetResolver()`: clears the in-memory URL and deletes
the persisted record. -/
def resetResolver (_s : ResolverState) : ResolverState :=
  ⟨none, none⟩

/-- Debounce window of `notifyConnectionFailed` (`FAILURE_DEBOUNCE_MS`). -/
def FAILURE_DEBOUNCE_MS : Nat := 10000

/-- The `lastFailureNotification` timestamp (milliseconds, initially 0). -/
structure FailureDebounce where
  lastFailureNotification : Nat
deriving DecidableEq, Repr

/-- Embedding of `notifyConnectionFailed()` at time `now`: returns the
debounce state afterwards and whether a `resolveNow()` pass was
triggered.  A call strictly inside the window is ignored. -/
def notifyConnectionFailed (now : Nat) (d : FailureDebounce) : FailureDebounce × Bool :=
  if now - d.lastFailureNotification < FAILURE_DEBOUNCE_MS then (d, false)
  else (⟨now⟩, true)

/-- Fold a list of call times through `notifyConnectionFailed`, counting
how many calls triggered a resolution pass. -/
def runFailureNotifications (times : List Nat) (d : FailureDebounce) : FailureDebounce × Nat :=
  times.foldl
    (fun acc t =>
      let step := notifyConnectionFailed t acc.1
      (step.1, acc.2 + (if step.2 then 1 else 0)))
    (d, 0)

/-! ## Transport session (`ApiSocket`) -/

/-- Connection status values of the `ApiSocket` state machine. -/
inductive ConnStatus where
  | disconnected
  | connecting
  | connected
  | error
deriving DecidableEq, Repr

/-- The part of the `ApiSocket` state a single acknowledged send can see:
`socket` is `none` when no socket object exists and `some b` when one
exists with `connected` flag `b`; `currentStatus` is the status machine
value. -/
structure TransportState where
  socket : Option Bool
  currentStatus : ConnStatus
deriving DecidableEq, Repr

/-- Errors thrown by the `ApiSocket` call paths. -/
inductive RpcError where
  | encryptionMissing
  | socketNotInitialized
  | connectionTimeout
  | rpcFailed
deriving DecidableEq, Repr

/-- Default bounded wait of `waitForConnection` (`timeoutMs = 10000`). -/
def connectionWaitTimeoutMs : Nat := 10000

/-- Embedding of `waitForConnection(timeoutMs = 10000)`.  `connectAt` is
the instant (ms from the call) at which the socket's `connect` event would
fire, `none` when it never does.  Already-connected resolves at once; a
missing socket object rejects at once; otherwise the connect event races
the timeout timer. -/
def waitForConnection (ts : TransportState) (connectAt : Option Nat)
    (timeoutMs : Nat := connectionWaitTimeoutMs) : Except RpcError Unit :=
  match ts.socket with
  | some true => .ok ()
  | none => .error .socketNotInitialized
  | some false =>
    match connectAt with
    | some t => if t < timeoutMs then .ok () else .error .connectionTimeout
    | none => .error .connectionTimeout

/-- Embedding of `emitWithAck(event, data)`: wait for the connection, then
perform one request/acknowledgement round trip whose acknowledgement is
given by the environment `ackOf`.  The transport state is returned
unchanged alongside the outcome. -/
def emitWithAck {α : Type} (event : String) (data : String) (ts : TransportState)
    (connectAt : Option Nat) (ackOf : String → String → α) :
    Except RpcError α × TransportState :=
  match waitForConnection ts connectAt with
  | .error e => (.error e, ts)
  | .ok _ => (.ok (ackOf event data), ts)

/-! ## Encryption scopes and peer RPC -/

/-- Modelled from the spec: a peer's symmetric cipher, "bound to that
peer's shared secret" (the `Encryption` module is not among the provided
sources).  The shared secret is abstracted to a numeric key. -/
structure PeerCipher where
  key : Nat
deriving DecidableEq, Repr

/-- Modelled from the spec: a payload enciphered under a shared secret.
The relay never reads it; only the matching key recovers the plaintext. -/
structure EncPayload where
  key : Nat
  payload : String
deriving DecidableEq, Repr

/-- Modelled from the spec: `encryptRaw` enciphers a payload under the
cipher's key. -/
def encryptRaw (c : PeerCipher) (p : String) : EncPayload :=
  ⟨c.key, p⟩

/-- Modelled from the spec: `decryptRaw` recovers the plaintext exactly
when the cipher's key matches the one the payload was enciphered under;
a mismatched key yields no meaningful plaintext (`none`). -/
def decryptRaw (c : PeerCipher) (e : EncPayload) : Option String :=
  if e.key = c.key then some e.payload else none

/-- Modelled from the spec: the lookup surface of the `Encryption`
registry, `getSessionEncryption` / `getMachineEncryption` by peer id,
`none` when no shared secret has been established for that peer. -/
structure Encryption where
  getSessionEncryption : String → Option PeerCipher
  getMachineEncryption : String → Option PeerCipher

/-- One emission on the socket: the socket event name (`rpc-call`), the
composed wire method key, and the encrypted parameters. -/
structure WireCall where
  event : String
  method : String
  params : EncPayload
deriving DecidableEq, Repr

/-- An acknowledgement for an `rpc-call`: success flag plus (encrypted)
result payload. -/
structure AckResult where
  ok : Bool
  result : EncPayload
deriving DecidableEq, Repr

/-- Embedding of `ApiSocket.sessionRPC(sessionId, method, params)`.
Besides the call outcome it returns the transport state afterwards and
the list of emissions performed on the socket. -/
def sessionRPC (enc : Encryption) (sessionId method params : String)
    (ts : TransportState) (connectAt : Option Nat) (ackOf : WireCall → AckResult) :
    Except RpcError (Option String) × TransportState × List WireCall :=
  match enc.getSessionEncryption sessionId with
  | none => (.error .encryptionMissing, ts, [])
  | some sessionEncryption =>
    match waitForConnection ts connectAt with
    | .error e => (.error e, ts, [])
    | .ok _ =>
      let call : WireCall :=
        ⟨"rpc-call", sessionId ++ ":" ++ method, encryptRaw sessionEncryption params⟩
      let result := ackOf call
      if result.ok then (.ok (decryptRaw sessionEncryption result.result), ts, [call])
      else (.error .rpcFailed, ts, [call])

/-- Embedding of `ApiSocket.machineRPC(machineId, method, params)`. -/
def machineRPC (enc : Encryption) (machineId method params : String)
    (ts : TransportState) (connectAt : Option Nat) (ackOf : WireCall → AckResult) :
    Except RpcError (Option String) × TransportState × List WireCall :=
  match enc.getMachineEncryption machineId with
  | none => (.error .encryptionMissing, ts, [])
  | some machineEncryption =>
    match waitForConnection ts connectAt with
    | .error e => (.error e, ts, [])
    | .ok _ =>
      let call : WireCall :=
        ⟨"rpc-call", machineId ++ ":" ++ method, encryptRaw machineEncryption params⟩
      let result := ackOf call
      if result.ok then (.ok (decryptRaw machineEncryption result.result), ts, [call])
      else (.error .rpcFailed, ts, [call])

/-! ## Status listeners -/

/-- Status-listener bookkeeping of `ApiSocket`: the current status, the
set of registered listeners (identified by numbers, in registration
order), and the log of listener invocations `(listener, status)` in the
order they happened. -/
structure StatusListeners where
  currentStatus : ConnStatus
  statusListeners : List Nat
  calls : List (Nat × ConnStatus)
deriving DecidableEq, Repr

/-- Embedding of `ApiSocket.onStatusChange(listener)`: adds the listener
to the set and immediately (synchronously) invokes it with the current
status. -/
def onStatusChange (id : Nat) (s : StatusListeners) : StatusListeners :=
  { s with
    statusListeners :=
      if id ∈ s.statusListeners then s.statusListeners else s.statusListeners ++ [id]
    calls := s.calls ++ [(id, s.currentStatus)] }

/-- Embedding of `ApiSocket.updateStatus(status)`: on an actual
transition every registered listener is invoked synchronously with the
new status; a call with the current status is a no-op. -/
def updateStatus (status : ConnStatus) (s : StatusListeners) : StatusListeners :=
  if s.currentStatus = status then s
  else
    { currentStatus := status
      statusListeners := s.statusListeners
      calls := s.calls ++ s.statusListeners.map (fun l => (l, status)) }

/-! ## The resolver lock (`resolveLock`)

Modelled from the spec: `AsyncLock` (`@/utils/lock`) is not among the
provided sources.  Per the spec, the whole body of `resolveNow` runs
inside `resolveLock.inLock`, so a resolution pass holds the lock from its
first probe to its last; a caller arriving while the lock is held is
queued and awaits the in-flight pass.  States record which passes are
currently running and which are queued; steps are arrivals and
completions of `resolveNow` invocations. -/

/-- State of the resolver lock: identifiers of resolution passes
currently executing their probe race, and the queue of waiting callers. -/
structure ResolveLockState where
  running : List Nat
  waiting : List Nat
deriving DecidableEq, Repr

/-- Transitions of the resolver lock: a `resolveNow` call arriving at a
free lock starts its pass; one arriving at a held lock is appended to the
queue; a finishing pass releases the lock, admitting the next waiter if
any. -/
inductive ResolveLockStep : ResolveLockState → ResolveLockState → Prop where
  | arriveIdle (id : Nat) (w : List Nat) :
      ResolveLockStep ⟨[], w⟩ ⟨[id], w⟩
  | arriveBusy (id : Nat) (r w : List Nat) (hr : r ≠ []) :
      ResolveLockStep ⟨r, w⟩ ⟨r, w ++ [id]⟩
  | finish (id : Nat) (r w : List Nat) :
      ResolveLockStep ⟨id :: r, w⟩ ⟨r ++ w.take 1, w.drop 1⟩

/-- Lock states reachable from the initial state (no pass running, no
caller waiting). -/
inductive ResolveLockReachable : ResolveLockState → Prop where
  | init : ResolveLockReachable ⟨[], []⟩
  | step {s s' : ResolveLockState} :
      ResolveLockReachable s → ResolveLockStep s s' → ResolveLockReachable s'

/-! ## Resolver operation traces (for the mutation invariant) -/

/-- One operation on the resolver state: a completed resolution pass, a
`getResolvedServerUrl` call, or a `resetResolver` call. -/
inductive ResolverOp where
  | race (primaryUrl : String) (lanUrl : Option String)
      (fetchEnv : String → FetchBehavior) (completionOrder : List String)
  | get (primaryUrl : String)
  | reset

/-- Whether the operation is a resolution race. -/
def ResolverOp.isRace : ResolverOp → Bool
  | .race _ _ _ _ => true
  | _ => false

/-- Whether the operation is the explicit reset. -/
def ResolverOp.isReset : ResolverOp → Bool
  | .reset => true
  | _ => false

/-- Effect of one resolver operation on the resolver state (a race whose
completion order never settles mutates nothing). -/
def applyOp : ResolverOp → ResolverState → ResolverState
  | .race p lan env ord, s => (resolveNow p lan env ord s).getD s
  | .get p, s => (getResolvedServerUrl p s).2.1
  | .reset, s => resetResolver s

/-! ## Helper lemmas -/

/-- A successful probe always returns its own URL. -/
theorem probeUrl_eq_some {url : String} {f : FetchBehavior} {t : Nat} {r : String}
    (h : probeUrl url f t = some r) : r = url := by
  unfold probeUrl at h
  cases f with
  | fails => simp at h
  | responds e ok body =>
    simp only at h
    split at h
    · simp at h
    · split at h
      · simp at h
      · split at h
        · simp at h
        · exact (Option.some.inj h).symm

/-- The settle loop of a race over all launched probes, with `pending`
equal to the number of completions, settles with the first probe result
that is non-null. -/
theorem raceLoop_eq (fetchEnv : String → FetchBehavior) (l : List String) (hne : l ≠ []) :
    raceLoop fetchEnv l.length l = some (l.findSome? fun u => probeUrl u (fetchEnv u)) := by
  induction l with
  | nil => exact absurd rfl hne
  | cons u rest ih =>
    cases hpu : probeUrl u (fetchEnv u) with
    | some r => simp [raceLoop, List.findSome?_cons, hpu]
    | none =>
      cases rest with
      | nil => simp [raceLoop, List.findSome?_cons, hpu]
      | cons v vs =>
        simp only [raceLoop, List.findSome?_cons, hpu, List.length_cons,
          Nat.add_sub_cancel]
        rw [if_neg (by simp)]
        exact ih (by simp)

/-- A race over a non-empty candidate list whose completion order is a
permutation of the candidates settles with the first non-null probe
result in completion order. -/
theorem raceProbes_eq (fetchEnv : String → FetchBehavior) (cands order : List String)
    (hne : cands ≠ []) (hperm : order.Perm cands) :
    raceProbes fetchEnv cands order =
      some (order.findSome? fun u => probeUrl u (fetchEnv u)) := by
  obtain ⟨c, cs, rfl⟩ := List.exists_cons_of_ne_nil hne
  unfold raceProbes
  simp only [List.isEmpty_cons, Bool.false_eq_true, if_false]
  by_cases h1 : (c :: cs).length = 1
  · obtain ⟨a, ha⟩ := List.length_eq_one.mp h1
    rw [if_pos h1, ha]
    have horder : order = [a] := List.perm_singleton.mp (ha ▸ hperm)
    subst horder
    simp only [List.head!_cons]
    cases hpa : probeUrl a (fetchEnv a) <;> simp [List.findSome?_cons, hpa]
  · rw [if_neg h1]
    have hlen : order.length = (c :: cs).length := hperm.length_eq
    have horder : order ≠ [] := by
      intro h
      rw [h] at hlen
      simp at hlen
    rw [← hlen]
    exact raceLoop_eq fetchEnv order horder

/-- For probe-shaped functions, finding the first non-null result is
finding the first candidate whose probe succeeds. -/
theorem findSome?_probe_eq_find? (fetchEnv : String → FetchBehavior) (l : List String) :
    (l.findSome? fun u => probeUrl u (fetchEnv u)) =
      l.find? fun u => (probeUrl u (fetchEnv u)).isSome := by
  induction l with
  | nil => rfl
  | cons u rest ih =>
    cases hpu : probeUrl u (fetchEnv u) with
    | some r =>
      have hru : r = u := probeUrl_eq_some hpu
      subst hru
      simp [List.findSome?_cons, List.find?_cons, hpu]
    | none => simp [List.findSome?_cons, List.find?_cons, hpu, ih]

/-- Whatever URL wins the settle loop passed its own probe. -/
theorem raceLoop_winner {fetchEnv : String → FetchBehavior} {w : String} :
    ∀ (n : Nat) (l : List String), raceLoop fetchEnv n l = some (some w) →
      probeUrl w (fetchEnv w) = some w := by
  intro n l
  induction l generalizing n with
  | nil => intro h; simp [raceLoop] at h
  | cons u rest ih =>
    intro h
    cases hpu : probeUrl u (fetchEnv u) with
    | some r =>
      simp only [raceLoop, hpu] at h
      have hrw : r = w := by simpa using h
      have hru : r = u := probeUrl_eq_some hpu
      have huw : u = w := by rw [← hru, hrw]
      rw [← huw, hpu, hru]
    | none =>
      simp only [raceLoop, hpu] at h
      split at h
      · simp at h
      · exact ih (n - 1) h

/-- Whatever URL wins a probe race passed its own probe. -/
theorem raceProbes_winner {fetchEnv : String → FetchBehavior} {cands order : List String}
    {w : String} (h : raceProbes fetchEnv cands order = some (some w)) :
    probeUrl w (fetchEnv w) = some w := by
  unfold raceProbes at h
  split at h
  · simp at h
  · split at h
    · have hw : probeUrl cands.head! (fetchEnv cands.head!) = some w := by simpa using h
      have hww := probeUrl_eq_some hw
      rw [hww] at hw ⊢
      exact hw
    · exact raceLoop_winner _ _ h

/-- A completed `resolveNow` either keeps the state (all probes failed)
or moves both URLs to a winner that passed its own probe. -/
theorem resolveNow_cases (primaryUrl : String) (lanUrl : Option String)
    (fetchEnv : String → FetchBehavior) (completionOrder : List String)
    (s : ResolverState) :
    resolveNow primaryUrl lanUrl fetchEnv completionOrder s = none ∨
    resolveNow primaryUrl lanUrl fetchEnv completionOrder s = some s ∨
    ∃ w, resolveNow primaryUrl lanUrl fetchEnv completionOrder s = some ⟨some w, some w⟩ ∧
      probeUrl w (fetchEnv w) = some w := by
  unfold resolveNow
  cases hr : raceProbes fetchEnv (buildCandidates primaryUrl lanUrl) completionOrder with
  | none => exact Or.inl rfl
  | some o =>
    cases o with
    | none => exact Or.inr (Or.inl rfl)
    | some w => exact Or.inr (Or.inr ⟨w, rfl, raceProbes_winner hr⟩)

/-- The candidate list always contains at least the primary URL. -/
theorem buildCandidates_ne_nil (primaryUrl : String) (lanUrl : Option String) :
    buildCandidates primaryUrl lanUrl ≠ [] := by
  cases lanUrl with
  | none => simp [buildCandidates]
  | some l =>
    simp only [buildCandidates]
    split <;> simp

/-! ## Claim theorems -/

/-- C7: `probeUrl` returns its URL exactly when the fetch responds before
the 3-second abort with an OK status and a body containing the fixed
server-identity marker; every other outcome (rejection, timeout, non-OK
status, body mismatch) yields `null`, and `probeUrl` never throws (it is
total and its only possible results are `some url` and `none`). -/
theorem probeUrl_contract (url : String) (f : FetchBehavior) :
    (probeUrl url f = some url ↔
      ∃ elapsedMs ok body, f = .responds elapsedMs ok body ∧
        elapsedMs < probeTimeoutMs ∧ ok = true ∧
        jsIncludes body happyServerMarker = true) ∧
    (probeUrl url f = some url ∨ probeUrl url f = none) ∧
    probeTimeoutMs = 3000 := by
  refine ⟨?_, ?_, rfl⟩
  · constructor
    · intro h
      unfold probeUrl at h
      cases f with
      | fails => simp at h
      | responds e ok body =>
        simp only at h
        split at h
        · simp at h
        · split at h
          · simp at h
          · split at h
            · simp at h
            · refine ⟨e, ok, body, rfl, by omega, ?_, ?_⟩
              · rename_i hok _
                simpa using hok
              · rename_i hinc
                simpa using hinc
    · rintro ⟨e, ok, body, rfl, helapsed, rfl, hinc⟩
      simp only [probeUrl]
      rw [if_neg (by omega)]
      simp [hinc]
  · cases hp : probeUrl url f with
    | none => exact Or.inr rfl
    | some r =>
      have hr := probeUrl_eq_some hp
      subst hr
      exact Or.inl rfl

/-- C7 witness: a fetch that responds in 100 ms with status OK and the
marker body makes the probe succeed with its own URL. -/
theorem probeUrl_contract_witness :
    probeUrl "https://h.example" (.responds 100 true "Welcome to Happy Server!") =
      some "https://h.example" :=
  (probeUrl_contract "https://h.example"
    (.responds 100 true "Welcome to Happy Server!")).1.mpr
    ⟨100, true, "Welcome to Happy Server!", rfl, by decide, rfl, by decide⟩

/-- C1: when the completion order covers exactly the de-duplicated
candidates, a completed `resolveNow` run in which at least one probe
succeeds sets both the in-memory and the persisted Active URL to the
first candidate (in probe-completion order) whose probe succeeds —
first-success-wins, regardless of which probe returns first — while a run
in which zero probes succeed leaves the state unchanged. -/
theorem resolveNow_first_success_wins (primaryUrl : String) (lanUrl : Option String)
    (fetchEnv : String → FetchBehavior) (completionOrder : List String)
    (s : ResolverState)
    (hperm : completionOrder.Perm (buildCandidates primaryUrl lanUrl)) :
    ∃ s', resolveNow primaryUrl lanUrl fetchEnv completionOrder s = some s' ∧
      (∀ w, (completionOrder.find? fun u => (probeUrl u (fetchEnv u)).isSome) = some w →
        s'.activeUrl = some w ∧ s'.storage = some w) ∧
      ((∀ u ∈ completionOrder, probeUrl u (fetchEnv u) = none) → s' = s) := by
  have hrp := raceProbes_eq fetchEnv _ completionOrder
    (buildCandidates_ne_nil primaryUrl lanUrl) hperm
  unfold resolveNow
  rw [hrp]
  cases hfs : completionOrder.findSome? (fun u => probeUrl u (fetchEnv u)) with
  | none =>
    refine ⟨s, rfl, ?_, fun _ => rfl⟩
    intro w hw
    rw [findSome?_probe_eq_find? fetchEnv] at hfs
    rw [hfs] at hw
    cases hw
  | some w =>
    refine ⟨⟨some w, some w⟩, rfl, ?_, ?_⟩
    · intro w' hw'
      rw [findSome?_probe_eq_find? fetchEnv] at hfs
      rw [hfs] at hw'
      have : w = w' := by simpa using hw'
      subst this
      exact ⟨rfl, rfl⟩
    · intro hall
      have h0 := List.findSome?_eq_none_iff.mpr hall
      rw [hfs] at h0
      cases h0

/-- C1 witness: with candidates `good` (primary) and `bad` (LAN), where
`bad` fails and returns first and `good` responds with the marker later,
the run settles on `good` and writes it to memory and storage. -/
theorem resolveNow_first_success_wins_witness :
    ∃ s', resolveNow "https://good.example" (some "https://bad.example")
        (fun u => if u = "https://good.example"
          then .responds 100 true "Welcome to Happy Server!" else .fails)
        ["https://bad.example", "https://good.example"] ⟨none, none⟩ = some s' ∧
      s'.activeUrl = some "https://good.example" ∧
      s'.storage = some "https://good.example" := by
  have hperm : (["https://bad.example", "https://good.example"] : List String).Perm
      (buildCandidates "https://good.example" (some "https://bad.example")) := by
    have hb : buildCandidates "https://good.example" (some "https://bad.example") =
        ["https://good.example", "https://bad.example"] := by decide
    rw [hb]
    exact List.Perm.swap _ _ _
  obtain ⟨s', h1, h2, h3⟩ := resolveNow_first_success_wins "https://good.example"
    (some "https://bad.example")
    (fun u => if u = "https://good.example"
      then .responds 100 true "Welcome to Happy Server!" else .fails)
    ["https://bad.example", "https://good.example"] ⟨none, none⟩ hperm
  exact ⟨s', h1, h2 "https://good.example" (by decide)⟩

/-- C4: `getResolvedServerUrl` is a total function (it always returns
synchronously and never throws); a cached (truthy) Active URL is returned
unchanged with no background work; on a cold cache it returns the primary
URL, records it as the in-memory Active URL, and starts a background
`resolveNow` without awaiting it (third component `true`); once a
non-empty primary URL is configured the returned URL is never empty. -/
theorem getResolvedServerUrl_contract (primaryUrl : String) (s : ResolverState) :
    (∀ u, s.activeUrl = some u → u ≠ "" →
      getResolvedServerUrl primaryUrl s = (u, s, false)) ∧
    (s.activeUrl = none ∨ s.activeUrl = some "" →
      getResolvedServerUrl primaryUrl s = (primaryUrl, ⟨some primaryUrl, s.storage⟩, true)) ∧
    (primaryUrl ≠ "" → (getResolvedServerUrl primaryUrl s).1 ≠ "") := by
  refine ⟨?_, ?_, ?_⟩
  · intro u hu hne
    simp [getResolvedServerUrl, hu, hne]
  · intro hcold
    cases hcold with
    | inl h => simp [getResolvedServerUrl, h]
    | inr h => simp [getResolvedServerUrl, h]
  · intro hp
    cases hs : s.activeUrl with
    | none => simpa [getResolvedServerUrl, hs] using hp
    | some u =>
      by_cases hu : u = ""
      · simpa [getResolvedServerUrl, hs, hu] using hp
      · simp [getResolvedServerUrl, hs, hu]

/-- C4 witness: on a cold cache with primary `https://a.example` the call
returns the primary synchronously, stores it as active, and starts a
background resolution. -/
theorem getResolvedServerUrl_contract_witness :
    getResolvedServerUrl "https://a.example" ⟨none, none⟩ =
      ("https://a.example", ⟨some "https://a.example", none⟩, true) :=
  (getResolvedServerUrl_contract "https://a.example" ⟨none, none⟩).2.1 (Or.inl rfl)

/-- C5: a `notifyConnectionFailed` call strictly inside the 10-second
window of the last accepted call is ignored (state kept, no resolution
pass), a call at or after the window records its own time and triggers a
pass, and two calls within one window trigger at most one pass. -/
theorem notifyConnectionFailed_debounce (now : Nat) (d : FailureDebounce) :
    (now - d.lastFailureNotification < FAILURE_DEBOUNCE_MS →
      notifyConnectionFailed now d = (d, false)) ∧
    (FAILURE_DEBOUNCE_MS ≤ now - d.lastFailureNotification →
      notifyConnectionFailed now d = (⟨now⟩, true)) ∧
    (∀ t1 t2 : Nat, t2 - t1 < FAILURE_DEBOUNCE_MS →
      (runFailureNotifications [t1, t2] d).2 ≤ 1) := by
  refine ⟨?_, ?_, ?_⟩
  · intro h
    simp [notifyConnectionFailed, h]
  · intro h
    simp [notifyConnectionFailed, Nat.not_lt.mpr h]
  · intro t1 t2 h12
    simp only [runFailureNotifications, List.foldl, notifyConnectionFailed]
    by_cases h1 : t1 - d.lastFailureNotification < FAILURE_DEBOUNCE_MS
    · rw [if_pos h1]
      by_cases h2 : t2 - d.lastFailureNotification < FAILURE_DEBOUNCE_MS
      · rw [if_pos h2]
        simp
      · rw [if_neg h2]
        simp
    · rw [if_neg h1]
      simp only
      rw [if_pos h12]
      simp

/-- C5 witness: starting from the initial debounce state, a call at
t = 50000 is accepted and records its time, and two calls 5 s apart
trigger at most one pass. -/
theorem notifyConnectionFailed_debounce_witness :
    notifyConnectionFailed 50000 ⟨0⟩ = (⟨50000⟩, true) ∧
    (runFailureNotifications [50000, 55000] ⟨0⟩).2 ≤ 1 :=
  ⟨(notifyConnectionFailed_debounce 50000 ⟨0⟩).2.1 (by decide),
   (notifyConnectionFailed_debounce 50000 ⟨0⟩).2.2 50000 55000 (by decide)⟩

/-- C8: a listener registered with `onStatusChange` is invoked
synchronously with the connection status current at registration (in
particular one registered after the session is `connected` receives
`connected` immediately), is recorded in the listener set, and every
registered listener is invoked with the new status on every subsequent
actual state transition. -/
theorem onStatusChange_immediate_current_status (id : Nat) (s : StatusListeners) :
    ((onStatusChange id s).calls = s.calls ++ [(id, s.currentStatus)]) ∧
    (id ∈ (onStatusChange id s).statusListeners) ∧
    (∀ status, status ≠ s.currentStatus → ∀ l ∈ s.statusListeners,
      (l, status) ∈ (updateStatus status s).calls) := by
  refine ⟨rfl, ?_, ?_⟩
  · simp only [onStatusChange]
    split
    · assumption
    · simp
  · intro status hne l hl
    simp only [updateStatus]
    rw [if_neg (fun h => hne h.symm)]
    simp only [List.mem_append]
    exact Or.inr (List.mem_map.mpr ⟨l, hl, rfl⟩)

/-- C8 witness: a listener registered while the status is `connected`
is immediately invoked with `connected`. -/
theorem onStatusChange_immediate_current_status_witness :
    (onStatusChange 0 ⟨.connected, [], []⟩).calls = [(0, ConnStatus.connected)] :=
  (onStatusChange_immediate_current_status 0 ⟨.connected, [], []⟩).1

/-- C2: a peer RPC (session or machine) against a peer for which no
encryption context is established rejects with the encryption-missing
error before any network I/O: the outcome is the same for every
connection environment, nothing is emitted on the socket, and the
transport state is unchanged. -/
theorem peerRPC_missing_cipher_rejects (enc : Encryption) (peerId method params : String)
    (ts : TransportState) (connectAt : Option Nat) (ackOf : WireCall → AckResult) :
    (enc.getSessionEncryption peerId = none →
      sessionRPC enc peerId method params ts connectAt ackOf =
        (.error .encryptionMissing, ts, [])) ∧
    (enc.getMachineEncryption peerId = none →
      machineRPC enc peerId method params ts connectAt ackOf =
        (.error .encryptionMissing, ts, [])) := by
  constructor
  · intro h
    simp [sessionRPC, h]
  · intro h
    simp [machineRPC, h]

/-- C2 witness: with an empty encryption registry, a session RPC to `S1`
rejects with the encryption-missing error, emits nothing, and leaves the
(disconnected, socketless) transport state unchanged. -/
theorem peerRPC_missing_cipher_rejects_witness :
    sessionRPC ⟨fun _ => none, fun _ => none⟩ "S1" "m" "p" ⟨none, .disconnected⟩ none
        (fun _ => ⟨false, ⟨0, ""⟩⟩) =
      (.error .encryptionMissing, ⟨none, .disconnected⟩, []) :=
  (peerRPC_missing_cipher_rejects ⟨fun _ => none, fun _ => none⟩ "S1" "m" "p"
    ⟨none, .disconnected⟩ none (fun _ => ⟨false, ⟨0, ""⟩⟩)).1 rfl

/-- C3 counterexample: `emitWithAck` called while the transport is
disconnected with no socket object (the state `disconnect()` leaves
behind) rejects immediately with the socket-not-initialized error, which
is not a timeout error — refuting the claim that every acknowledged send
made while disconnected with no connection arriving within 10 s rejects
with a timeout error. -/
theorem emitWithAck_disconnected_not_timeout_cex :
    (emitWithAck "rpc-call" "x" ⟨none, .disconnected⟩ none (fun _ _ => (0 : Nat))).1 =
      .error .socketNotInitialized ∧
    RpcError.socketNotInitialized ≠ RpcError.connectionTimeout ∧
    (TransportState.mk none .disconnected).currentStatus = .disconnected :=
  ⟨rfl, by decide, rfl⟩

/-- C3 (amended): an acknowledged send made while the transport is
disconnected rejects with the timeout error after the 10-second bounded
wait when a socket object exists and no connection is established within
the bound; when no socket object exists it rejects immediately with the
socket-not-initialized error; in both cases the transport state is
unaffected by the rejection. -/
theorem emitWithAck_bounded_wait {α : Type} (event data : String) (ts : TransportState)
    (connectAt : Option Nat) (ackOf : String → String → α)
    (_hdis : ts.currentStatus = .disconnected) :
    (ts.socket = some false →
      (connectAt = none ∨ ∃ t, connectAt = some t ∧ connectionWaitTimeoutMs ≤ t) →
      emitWithAck event data ts connectAt ackOf = (.error .connectionTimeout, ts)) ∧
    (ts.socket = none →
      emitWithAck event data ts connectAt ackOf = (.error .socketNotInitialized, ts)) := by
  constructor
  · intro hsock hlate
    cases hlate with
    | inl h => simp [emitWithAck, waitForConnection, hsock, h]
    | inr h =>
      obtain ⟨t, rfl, ht⟩ := h
      simp [emitWithAck, waitForConnection, hsock, Nat.not_lt.mpr ht]
  · intro hsock
    simp [emitWithAck, waitForConnection, hsock]

/-- C3 witness: a disconnected transport whose socket object exists and
whose connect event never fires makes `emitWithAck` reject with the
timeout error, leaving the state unchanged. -/
theorem emitWithAck_bounded_wait_witness :
    emitWithAck "rpc-call" "x" ⟨some false, .disconnected⟩ none (fun _ _ => (0 : Nat)) =
      (.error .connectionTimeout, ⟨some false, .disconnected⟩) :=
  (emitWithAck_bounded_wait "rpc-call" "x" ⟨some false, .disconnected⟩ none
    (fun _ _ => (0 : Nat)) rfl).1 rfl (Or.inl rfl)

/-- C6: a session RPC with an established cipher emits exactly one wire
call whose method key is `"{peerId}:{method}"` and whose parameters are
encrypted with the cipher looked up by that peer's own identifier; on a
successful acknowledgement the result is decrypted with that same
cipher (and round-trips); `machineRPC` composes its wire call the same
way from its own peer's cipher; distinct peer identifiers give distinct
method keys; and decrypting with a different peer's cipher fails, so the
two calls cannot cross-decrypt each other's results. -/
theorem sessionRPC_cipher_scoping (enc : Encryption) (sessionId method params : String)
    (ts : TransportState) (connectAt : Option Nat) (ackOf : WireCall → AckResult)
    (c : PeerCipher) (hc : enc.getSessionEncryption sessionId = some c)
    (hconn : ts.socket = some true) :
    ((sessionRPC enc sessionId method params ts connectAt ackOf).2.2 =
      [⟨"rpc-call", sessionId ++ ":" ++ method, encryptRaw c params⟩]) ∧
    ((ackOf ⟨"rpc-call", sessionId ++ ":" ++ method, encryptRaw c params⟩).ok = true →
      (sessionRPC enc sessionId method params ts connectAt ackOf).1 =
        .ok (decryptRaw c
          (ackOf ⟨"rpc-call", sessionId ++ ":" ++ method, encryptRaw c params⟩).result)) ∧
    (∀ machineId c2, enc.getMachineEncryption machineId = some c2 →
      (machineRPC enc machineId method params ts connectAt ackOf).2.2 =
        [⟨"rpc-call", machineId ++ ":" ++ method, encryptRaw c2 params⟩]) ∧
    (∀ sid1 sid2 m : String, sid1 ≠ sid2 → sid1 ++ ":" ++ m ≠ sid2 ++ ":" ++ m) ∧
    (∀ c1 c2 : PeerCipher, ∀ p : String, c1.key ≠ c2.key →
      decryptRaw c1 (encryptRaw c2 p) = none) ∧
    (∀ p : String, decryptRaw c (encryptRaw c p) = some p) := by
  refine ⟨?_, ?_, ?_, ?_, ?_, ?_⟩
  · simp only [sessionRPC, hc, waitForConnection, hconn]
    split <;> rfl
  · intro hok
    simp [sessionRPC, hc, waitForConnection, hconn, hok]
  · intro machineId c2 hc2
    simp only [machineRPC, hc2, waitForConnection, hconn]
    split <;> rfl
  · intro sid1 sid2 m hne he
    apply hne
    have hd := congrArg String.data he
    simp only [String.data_append] at hd
    exact String.ext (List.append_cancel_right (List.append_cancel_right hd))
  · intro c1 c2 p hkey
    simp only [decryptRaw, encryptRaw]
    rw [if_neg (fun h => hkey h.symm)]
  · intro p
    simp [decryptRaw, encryptRaw]

/-- C6 witness: with session `S1` bound to key 1, a successful RPC emits
the wire call `("rpc-call", "S1:m", enc_1("p"))` and distinct sessions
`S1`, `S2` give distinct method keys while key 2 cannot decrypt a key-1
payload. -/
theorem sessionRPC_cipher_scoping_witness :
    ((sessionRPC ⟨fun _ => some ⟨1⟩, fun _ => none⟩ "S1" "m" "p"
        ⟨some true, .connected⟩ none (fun call => ⟨true, call.params⟩)).2.2 =
      [⟨"rpc-call", "S1" ++ ":" ++ "m", encryptRaw ⟨1⟩ "p"⟩]) ∧
    ("S1" ++ ":" ++ "m" ≠ "S2" ++ ":" ++ "m") ∧
    decryptRaw ⟨2⟩ (encryptRaw ⟨1⟩ "p") = none := by
  have h := sessionRPC_cipher_scoping ⟨fun _ => some ⟨1⟩, fun _ => none⟩ "S1" "m" "p"
    ⟨some true, .connected⟩ none (fun call => ⟨true, call.params⟩) ⟨1⟩ rfl rfl
  exact ⟨h.1, h.2.2.2.1 "S1" "S2" "m" (by decide), h.2.2.2.2.1 ⟨2⟩ ⟨1⟩ "p" (by decide)⟩

/-- C9 counterexample: a `getResolvedServerUrl` call on a cold cache
mutates the in-memory Active URL (from `none` to the primary URL) even
though it is neither a resolution race nor the reset operation — refuting
the claim that the Active URL is mutated only by a resolution race in
which some probe succeeded and cleared only by `resetResolver`. -/
theorem activeUrl_unprobed_mutation_cex :
    (applyOp (.get "https://a.example") ⟨none, none⟩).activeUrl ≠
      (ResolverState.mk none none).activeUrl ∧
    (ResolverOp.get "https://a.example").isRace = false ∧
    (ResolverOp.get "https://a.example").isReset = false :=
  ⟨by decide, rfl, rfl⟩

/-- C9 (amended): a completed resolution race either leaves the resolver
state unchanged or moves both the in-memory and persisted Active URL to a
winner that passed its own probe; `getResolvedServerUrl` never touches
the persisted record and mutates the in-memory value only on a cold
cache, setting it to the (unprobed) primary URL; `resetResolver` is the
only operation that clears them.  Hence the persisted Active URL record
is never written with a URL that did not pass a probe and is deleted only
by `resetResolver`. -/
theorem resolver_mutation_invariant :
    (∀ (p : String) (lan : Option String) (env : String → FetchBehavior)
       (ord : List String) (s : ResolverState),
      applyOp (.race p lan env ord) s = s ∨
      ∃ w, applyOp (.race p lan env ord) s = ⟨some w, some w⟩ ∧
        probeUrl w (env w) = some w) ∧
    (∀ (p : String) (s : ResolverState), (applyOp (.get p) s).storage = s.storage) ∧
    (∀ (p : String) (s : ResolverState), (applyOp (.get p) s).activeUrl ≠ s.activeUrl →
      (s.activeUrl = none ∨ s.activeUrl = some "") ∧
      (applyOp (.get p) s).activeUrl = some p) ∧
    (∀ s : ResolverState, applyOp .reset s = ⟨none, none⟩) := by
  refine ⟨?_, ?_, ?_, ?_⟩
  · intro p lan env ord s
    rcases resolveNow_cases p lan env ord s with h | h | ⟨w, h, hw⟩
    · exact Or.inl (by simp [applyOp, h])
    · exact Or.inl (by simp [applyOp, h])
    · exact Or.inr ⟨w, by simp [applyOp, h], hw⟩
  · intro p s
    cases hs : s.activeUrl with
    | none => simp [applyOp, getResolvedServerUrl, hs]
    | some u =>
      by_cases hu : u = "" <;> simp [applyOp, getResolvedServerUrl, hs, hu]
  · intro p s hdiff
    cases hs : s.activeUrl with
    | none => exact ⟨Or.inl rfl, by simp [applyOp, getResolvedServerUrl, hs]⟩
    | some u =>
      by_cases hu : u = ""
      · subst hu
        exact ⟨Or.inr rfl, by simp [applyOp, getResolvedServerUrl, hs]⟩
      · exact absurd (by simp [applyOp, getResolvedServerUrl, hs, hu])
          (hs ▸ hdiff)
  · intro s
    rfl

/-- C9 witness: on a cold cache, the `getResolvedServerUrl` operation
changes the in-memory value, and the amended invariant pins the change to
exactly the cold-cache fallback to the primary URL. -/
theorem resolver_mutation_invariant_witness :
    ((ResolverState.mk none none).activeUrl = none ∨
      (ResolverState.mk none none).activeUrl = some "") ∧
    (applyOp (.get "https://b.example") ⟨none, none⟩).activeUrl =
      some "https://b.example" :=
  resolver_mutation_invariant.2.2.1 "https://b.example" ⟨none, none⟩ (by decide)

/-- C10: along every reachable execution of the resolver lock, at most
one resolution pass is running at any time (no two probe races ever
interleave), and while a pass is in flight no step increases the number
of running passes — a caller arriving then is queued, waiting for the
in-flight pass, rather than starting its own. -/
theorem resolveLock_mutual_exclusion :
    (∀ s : ResolveLockState, ResolveLockReachable s → s.running.length ≤ 1) ∧
    (∀ s s' : ResolveLockState, ResolveLockStep s s' → s.running ≠ [] →
      s'.running.length ≤ s.running.length) := by
  constructor
  · intro s hs
    induction hs with
    | init => decide
    | step hreach hstep ih =>
      cases hstep with
      | arriveIdle id w => simp
      | arriveBusy id r w hr => exact ih
      | finish id r w =>
        simp only [List.length_cons] at ih
        simp only [List.length_append, List.length_take]
        omega
  · intro s s' hstep hne
    cases hstep with
    | arriveIdle id w => exact absurd rfl hne
    | arriveBusy id r w hr => exact Nat.le_refl _
    | finish id r w =>
      simp only [List.length_append, List.length_take, List.length_cons]
      omega

/-- C10 witness: after one pass starts and a second caller arrives while
it runs, the state has one running pass and one queued caller; the
mutual-exclusion bound applies to it. -/
theorem resolveLock_mutual_exclusion_witness :
    (ResolveLockState.mk [0] [1]).running.length ≤ 1 :=
  resolveLock_mutual_exclusion.1 ⟨[0], [1]⟩
    (ResolveLockReachable.step
      (ResolveLockReachable.step ResolveLockReachable.init
        (ResolveLockStep.arriveIdle 0 []))
      (ResolveLockStep.arriveBusy 1 [0] [] (by decide)))

end Happy
